import Mathlib

/-!
Verification development for the mikrotik-fwban reconciliation and mutation
engine (`mikrotik.go`, `duration.go`, `parseCIDR`).  Go code is shallowly
embedded: machine integers become `Nat`/`Int`, `time.Time`/`time.Duration`
become nanosecond counts (`Nat`, with `0` playing the role of the zero
`time.Time`), fallible code returns `Option`, and a Go runtime panic is the
`.panic` constructor of an explicit result type.
-/

/-! ## IP addresses: embedding of Go `net.ParseIP` (via `netip.ParseAddr`)

A Go `net.IP` produced by `ParseIP` is always a 16-byte slice; we model it as
its 128-bit big-endian numeric value.  A dotted-quad parse yields the
IPv4-in-IPv6 form (bytes `0..9` zero, bytes `10,11` = `0xff`), exactly as
`net.IPv4` does, so `To4` is decided by the numeric prefix `0xffff` in the
high 96 bits. -/

/-- `ip.To4() != nil` for a 16-byte IP value: the high 96 bits must be
`0x0000...ffff`; returns the 32-bit IPv4 value. -/
def goTo4 (v : Nat) : Option Nat :=
  if v / 2 ^ 32 = 0xffff then some (v % 2 ^ 32) else none

/-- Hex digit test of `netip.parseIPv6`'s inline scanner. -/
def goIsHex (c : Char) : Bool :=
  ('0' ≤ c && c ≤ '9') || ('a' ≤ c && c ≤ 'f') || ('A' ≤ c && c ≤ 'F')

/-- Hex digit value (only meaningful when `goIsHex c`). -/
def goHexVal (c : Char) : Nat :=
  if '0' ≤ c && c ≤ '9' then c.toNat - '0'.toNat
  else if 'a' ≤ c && c ≤ 'f' then c.toNat - 'a'.toNat + 10
  else c.toNat - 'A'.toNat + 10

/-- One dotted-quad field per `netip.parseIPv4Fields`: a nonempty maximal
decimal digit run, no leading zero (unless the field is exactly `"0"`),
value at most 255.  Returns the value and the unconsumed remainder. -/
def parseV4Field (s : List Char) : Option (Nat × List Char) :=
  let ds := s.takeWhile (·.isDigit)
  let rest := s.dropWhile (·.isDigit)
  if ds = [] then none
  else if ds.length > 1 && ds.head? = some '0' then none
  else
    let v := ds.foldl (fun a c => a * 10 + (c.toNat - '0'.toNat)) 0
    if v > 255 then none else some (v, rest)

/-- Expect a literal `'.'` separator. -/
def expectDot : List Char → Option (List Char)
  | '.' :: r => some r
  | _ => none

/-- `netip.parseIPv4`: exactly four fields separated by dots, nothing
trailing.  Result is the 32-bit value. -/
def parseIPv4Chars (s : List Char) : Option Nat := do
  let (f0, s0) ← parseV4Field s
  let s0 ← expectDot s0
  let (f1, s1) ← parseV4Field s0
  let s1 ← expectDot s1
  let (f2, s2) ← parseV4Field s1
  let s2 ← expectDot s2
  let (f3, s3) ← parseV4Field s2
  if s3 = [] then some (((f0 * 256 + f1) * 256 + f2) * 256 + f3) else none

/-- Main loop of `netip.parseIPv6` (`for i < 16`).  `i` counts bytes already
produced, `ell` is the ellipsis byte position if one was seen, `ip` the bytes
so far.  Each iteration consumes at least one character and adds two bytes
(or four for an embedded IPv4 tail), so eight iterations of fuel suffice;
`fuel` is initialized to 16.  Returns the bytes, ellipsis, and final `i`. -/
def v6Loop : Nat → List Char → Nat → Option Nat → List Nat →
    Option (List Nat × Option Nat × Nat)
  | 0, _, _, _, _ => none
  | fuel + 1, s, i, ell, ip =>
    let ds := s.takeWhile goIsHex
    let rest := s.dropWhile goIsHex
    if ds = [] then none -- each colon-separated field must have at least one digit
    else
      let acc := ds.foldl (fun a c => a * 16 + goHexVal c) 0
      if acc > 0xffff then none -- IPv6 field has value >= 2^16
      else
        match rest with
        | '.' :: _ =>
          -- embedded IPv4 must replace the final two fields
          if ell.isNone && i ≠ 12 then none
          else if i + 4 > 16 then none
          else do
            let v4 ← parseIPv4Chars s
            some (ip ++ [v4 / 2 ^ 24, v4 / 2 ^ 16 % 256, v4 / 2 ^ 8 % 256, v4 % 256],
              ell, i + 4)
        | _ =>
          let ip := ip ++ [acc / 256, acc % 256]
          let i := i + 2
          match rest with
          | [] => some (ip, ell, i)
          | ':' :: rest2 =>
            match rest2 with
            | [] => none -- colon must be followed by more characters
            | ':' :: rest3 =>
              if ell.isSome then none -- multiple :: in address
              else if rest3 = [] then some (ip, some i, i)
              else if i < 16 then v6Loop fuel rest3 i (some i) ip
              else none -- trailing garbage after address
            | _ =>
              if i < 16 then v6Loop fuel rest2 i ell ip
              else none -- trailing garbage after address
          | _ => none -- unexpected character, want colon

/-- Post-loop processing of `netip.parseIPv6`: expand the ellipsis (or
reject a too-short / over-long address). -/
def v6Finish : Option (List Nat × Option Nat × Nat) → Option (List Nat)
  | none => none
  | some (ip, ell, i) =>
    if i < 16 then
      match ell with
      | none => none -- address string too short
      | some e => some (ip.take e ++ List.replicate (16 - i) 0 ++ ip.drop e)
    else
      match ell with
      | some _ => none -- the :: must expand to at least one field of zeros
      | none => some ip

/-- `netip.parseIPv6` (zones rejected: `net.ParseIP` refuses any zone, and an
empty one is an error in `netip` itself, so any `'%'` yields failure). -/
def parseIPv6Chars (s : List Char) : Option (List Nat) :=
  if s.contains '%' then none
  else
    match s with
    | ':' :: ':' :: rest =>
      if rest = [] then some (List.replicate 16 0)
      else v6Finish (v6Loop 16 rest 0 (some 0) [])
    | _ => v6Finish (v6Loop 16 s 0 none [])

/-- Big-endian byte list to numeric value. -/
def bytesToNat (bs : List Nat) : Nat :=
  bs.foldl (fun a b => a * 256 + b) 0

/-- The IPv4-in-IPv6 prefix: bytes `0..9` zero, bytes `10,11` = `0xff`. -/
def v4InV6 (v4 : Nat) : Nat := 0xffff * 2 ^ 32 + v4

/-- Dispatch of `netip.ParseAddr`: the first `'.'`, `':'` or `'%'` decides
the address family (`'%'` is an immediate error, as is a string with none of
the three). `some true` = IPv4, `some false` = IPv6. -/
def addrKind : List Char → Option Bool
  | [] => none
  | c :: r =>
    if c = '.' then some true
    else if c = ':' then some false
    else if c = '%' then none
    else addrKind r

/-- `net.ParseIP`: returns the 128-bit value of the 16-byte representation
(IPv4 results use the IPv4-in-IPv6 form, as `net.IPv4` does). -/
def goParseIPChars (s : List Char) : Option Nat :=
  match addrKind s with
  | some true => (parseIPv4Chars s).map v4InV6
  | some false => (parseIPv6Chars s).map bytesToNat
  | none => none

def goParseIP (s : String) : Option Nat := goParseIPChars s.toList

/-! ## `parseCIDR` (repo function) -/

/-- The value type of a Go `net.IPNet` as the program uses it: the address
family as seen through `To4` (which decides the `/ip` vs `/ipv6` API
namespace, the mask width and the rendering), the numeric address, and the
prefix length.  Two `IPNet`s produced by `parseCIDR` render to the same
`Net.String()` exactly when these three fields agree, so structural equality
models the string-keyed map of `populateBanlist`. -/
structure IPNet where
  is4 : Bool
  addr : Nat
  maskLen : Nat
deriving DecidableEq, Repr

/-- `ip.Mask(CIDRMask(n, bits))`: keep the top `n` of `bits` bits. -/
def maskApply (bits n v : Nat) : Nat := v / 2 ^ (bits - n) * 2 ^ (bits - n)

/-- `strconv.Atoi`: optional sign, then a nonempty run of decimal digits and
nothing else.  (Go additionally errors on values exceeding 64-bit `int`;
every caller here range-checks the result against at most 128 immediately,
so the outcome is identical and the overflow check is omitted.) -/
def goAtoiChars (s : List Char) : Option Int :=
  let (neg, ds) : Bool × List Char :=
    match s with
    | '+' :: r => (false, r)
    | '-' :: r => (true, r)
    | _ => (false, s)
  if ds = [] then none
  else if ds.all (·.isDigit) then
    let v : Int := Int.ofNat (ds.foldl (fun a c => a * 10 + (c.toNat - '0'.toNat)) 0)
    some (if neg then -v else v)
  else none

/-- Split a character list at its first `'/'` (`strings.Index(s, "/")`). -/
def splitSlash : List Char → Option (List Char × List Char)
  | [] => none
  | c :: r =>
    if c = '/' then some ([], r)
    else (splitSlash r).map (fun p => (c :: p.1, p.2))

/-- Embedding of the repo's `parseCIDR` (the `verbose` parameter only
controls logging and is dropped).  No slash: a bare IP gets a full-length
mask.  With a slash: the address part is parsed with `net.ParseIP`, the mask
with `strconv.Atoi`, range-checked against the family's bit width, and the
network address is masked.  Anything else is `none` (Go `nil`). -/
def parseCIDRChars (cs : List Char) : Option IPNet :=
  match splitSlash cs with
  | none =>
    (goParseIPChars cs).map (fun v =>
      match goTo4 v with
      | some v4 => ⟨true, v4, 32⟩
      | none => ⟨false, v, 128⟩)
  | some (a, m) =>
    match goParseIPChars a, goAtoiChars m with
    | some v, some n =>
      let is4 := (goTo4 v).isSome
      let bits : Nat := if is4 then 32 else 128
      if n < 0 ∨ n > (bits : Int) then none
      else
        let base := match goTo4 v with | some v4 => v4 | none => v
        some ⟨is4, maskApply bits n.toNat base, n.toNat⟩
    | _, _ => none

def parseCIDR (s : String) : Option IPNet := parseCIDRChars s.toList

/-- The address family `parseCIDR` assigns to a parsed IP value (`To4`). -/
def ipFam (v : Nat) : Bool := (goTo4 v).isSome

/-- The bit width of the family of `v` (`8*iplen`). -/
def ipBits (v : Nat) : Nat := if ipFam v then 32 else 128

/-- The numeric address `parseCIDR` works with: the 32-bit value for an
IPv4(-mapped) value, the full 128-bit value otherwise. -/
def ipBase (v : Nat) : Nat := (goTo4 v).getD v

/-! ## Durations

`duration.go` delegates to Go's `time.ParseDuration` / `time.Duration.String`;
both are embedded here over nanosecond counts.  The device-side timeout
grammar (`regTimeout` in `mikrotik.go`) is a separate parser, embedded as
`regTimeoutMatch` below. -/

/-- `time.leadingInt`: consume a decimal digit run accumulating its value,
failing (as Go does) if the value would exceed `2^63`. -/
def goLeadingInt : Nat → List Char → Option (Nat × List Char)
  | x, [] => some (x, [])
  | x, c :: r =>
    if c.isDigit then
      if x > 2 ^ 63 / 10 then none
      else
        let y := x * 10 + (c.toNat - '0'.toNat)
        if y > 2 ^ 63 then none else goLeadingInt y r
    else some (x, c :: r)

/-- `time.leadingFraction`: consume the digit run after a decimal point; on
overflow further digits are ignored (`scale` stops growing).  `scale` stays
the exact power of ten Go tracks in a `float64`. -/
def goLeadingFraction : Nat → Nat → Bool → List Char →
    (Nat × Nat × List Char)
  | x, scale, _, [] => (x, scale, [])
  | x, scale, overflow, c :: r =>
    if c.isDigit then
      if overflow then goLeadingFraction x scale overflow r
      else if x > (2 ^ 63 - 1) / 10 then goLeadingFraction x scale true r
      else
        let y := x * 10 + (c.toNat - '0'.toNat)
        if y > 2 ^ 63 then goLeadingFraction x scale true r
        else goLeadingFraction y (scale * 10) overflow r
    else (x, scale, c :: r)

/-- `time.unitMap`, in nanoseconds. -/
def unitMapLookup (u : List Char) : Option Nat :=
  if u = "ns".toList then some 1
  else if u = "us".toList then some 1000
  else if u = "µs".toList then some 1000
  else if u = "μs".toList then some 1000
  else if u = "ms".toList then some 1000000
  else if u = "s".toList then some 1000000000
  else if u = "m".toList then some 60000000000
  else if u = "h".toList then some 3600000000000
  else none

/-- The `for s != ""` loop of `time.ParseDuration`: one `(digits)(.digits)?
(unit)` component per iteration.  Each iteration consumes at least one
character, so the string length is enough fuel.  The fractional contribution
`f * unit / scale` is computed exactly where Go uses `float64`; the two agree
on every input whose fraction times the unit is exactly representable (all
inputs in this development are integral). -/
def parseDurChunks : Nat → List Char → Nat → Option Nat
  | 0, _, _ => none
  | fuel + 1, s, d =>
    if s = [] then some d
    else
      match s.head? with
      | none => none
      | some c0 =>
        if ¬(c0 = '.' ∨ c0.isDigit) then none
        else do
          let (v, s1) ← goLeadingInt 0 s
          let pre : Bool := s1.length != s.length
          let (f, scale, s2, post) :=
            match s1 with
            | '.' :: r =>
              let (f, sc, s3) := goLeadingFraction 0 1 false r
              (f, sc, s3, (s3.length != r.length : Bool))
            | _ => (0, 1, s1, false)
          if !pre && !post then none
          else
            let u := s2.takeWhile (fun c => ¬(c = '.' ∨ c.isDigit))
            let s4 := s2.dropWhile (fun c => ¬(c = '.' ∨ c.isDigit))
            if u = [] then none -- missing unit in duration
            else
              match unitMapLookup u with
              | none => none -- unknown unit
              | some unit =>
                if v > 2 ^ 63 / unit then none
                else
                  let v1 := v * unit
                  let v2 := if f > 0 then v1 + f * unit / scale else v1
                  if f > 0 ∧ v2 > 2 ^ 63 then none
                  else
                    let d1 := (d + v2) % 2 ^ 64
                    if d1 > 2 ^ 63 then none
                    else parseDurChunks fuel s4 d1

/-- `time.ParseDuration` over a nanosecond `Int`; `none` is a parse error. -/
def goParseDuration (str : String) : Option Int :=
  let s := str.toList
  let (neg, s) : Bool × List Char :=
    match s with
    | '-' :: r => (true, r)
    | '+' :: r => (false, r)
    | _ => (false, s)
  if s = ['0'] then some 0
  else if s = [] then none
  else
    match parseDurChunks s.length s 0 with
    | none => none
    | some d =>
      if neg then some (-(d : Int))
      else if d > 2 ^ 63 - 1 then none
      else some (d : Int)

/-- `Duration.UnmarshalText` (duration.go): delegates to `time.ParseDuration`
(on error Go stores 0 in the receiver and returns the error; here the error
case is `none`). -/
def durationUnmarshalText (s : String) : Option Int := goParseDuration s

/-- `time.fmtFrac`: format the `prec` least significant digits of `v` as a
fraction, omitting trailing zeros (and the decimal point when the whole
fraction is zero); returns the remaining integer part. -/
def fmtFracGo : Nat → Nat → Bool → List Char → (List Char × Nat)
  | 0, v, print, acc => (if print then '.' :: acc else acc, v)
  | p + 1, v, print, acc =>
    let digit := v % 10
    let print1 := print || digit ≠ 0
    let acc1 := if print1 then Char.ofNat ('0'.toNat + digit) :: acc else acc
    fmtFracGo p (v / 10) print1 acc1

/-- `time.Duration.String` over a nanosecond `Int` (`Duration.String` in
duration.go delegates to it).  In Go a zero duration returns `"0s"` before
the sign is considered; since `u = 0` forces `neg = false` the single-path
formulation below is equivalent. -/
def durationString (d : Int) : String :=
  let u := d.natAbs
  let body :=
    if u < 1000000000 then
      if u = 0 then "0s"
      else if u < 1000 then Nat.repr u ++ "ns"
      else if u < 1000000 then
        let (frac, u1) := fmtFracGo 3 u false []
        Nat.repr u1 ++ String.mk frac ++ "µs"
      else
        let (frac, u1) := fmtFracGo 6 u false []
        Nat.repr u1 ++ String.mk frac ++ "ms"
    else
      let (frac, secsTotal) := fmtFracGo 9 u false []
      let secPart := Nat.repr (secsTotal % 60) ++ String.mk frac ++ "s"
      let mins := secsTotal / 60
      if mins = 0 then secPart
      else
        let minPart := Nat.repr (mins % 60) ++ "m" ++ secPart
        let hrs := mins / 60
        if hrs = 0 then minPart else Nat.repr hrs ++ "h" ++ minPart
  (if d < 0 ∧ u ≠ 0 then "-" else "") ++ body

/-! ## The device timeout grammar (`regTimeout`)

`regTimeout = (?:(\d+)w)?(?:(\d+)d)?(?:(\d+)h)?(?:(\d+)m)?(?:(\d+)s)?`.
Every group is optional, so `FindStringSubmatch` always matches at position 0
(possibly matching the empty string) and never fails.  A group `(?:(\d+)X)?`
matches at the current position exactly when a nonempty maximal digit run is
followed immediately by the letter `X` (a shorter, backtracked run would end
at a digit, never at `X`), consuming both; otherwise it matches empty and
consumes nothing.  Trailing unmatched input is ignored. -/

/-- One optional `(?:(\d+)X)?` component at the current position. -/
def matchComp (letter : Char) (s : List Char) : Option Nat × List Char :=
  let ds := s.takeWhile (·.isDigit)
  let rest := s.dropWhile (·.isDigit)
  match ds, rest with
  | [], _ => (none, s)
  | _, [] => (none, s)
  | _, c :: r =>
    if c = letter then
      (some (ds.foldl (fun a d => a * 10 + (d.toNat - '0'.toNat)) 0), r)
    else (none, s)

/-- The five submatches of `regTimeout.FindStringSubmatch` (weeks, days,
hours, minutes, seconds); `none` is an empty submatch. -/
def regTimeoutMatch (s : List Char) :
    Option Nat × Option Nat × Option Nat × Option Nat × Option Nat :=
  let (w, s1) := matchComp 'w' s
  let (d, s2) := matchComp 'd' s1
  let (h, s3) := matchComp 'h' s2
  let (m, s4) := matchComp 'm' s3
  let (sec, _) := matchComp 's' s4
  (w, d, h, m, sec)

/-- The duration accumulation of `Mikrotik.toDuration` (mikrotik.go): each
nonempty submatch contributes with its fixed unit; an unmatched component
contributes zero.  The result is in nanoseconds.  Note there is no error
case: a string with no recognizable component yields 0. -/
def timeoutToDuration (s : String) : Nat :=
  let (w, d, h, m, sec) := regTimeoutMatch s.toList
  w.getD 0 * (7 * 24 * 3600000000000) + d.getD 0 * (24 * 3600000000000) +
    h.getD 0 * 3600000000000 + m.getD 0 * 60000000000 + sec.getD 0 * 1000000000

/-! ## The Mikrotik engine (mikrotik.go)

Time instants are nanosecond counts (`Nat`); `0` is the zero `time.Time`
(`IsZero`, i.e. a permanent entry).  The RouterOS client is a black box: each
remote call's outcome is an explicit argument (an oracle function for the
loops).  A Go runtime panic is `RunResult.panic`. -/

/-- Outcome of running a piece of Go code: a runtime panic, an error
returned/escalated, or a value. -/
inductive RunResult (α : Type) where
  | panic : RunResult α
  | err : String → RunResult α
  | ok : α → RunResult α
deriving DecidableEq, Repr

/-- Sequencing of Go code: a panic or a propagated error aborts. -/
def RunResult.bind {α β : Type} : RunResult α → (α → RunResult β) → RunResult β
  | .panic, _ => .panic
  | .err e, _ => .err e
  | .ok a, f => f a

/-- `BlackIP` (mikrotik.go): a prefix, its absolute expiry (`0` = permanent),
and the device row identifier. -/
structure BlackIP where
  net : IPNet
  dead : Nat
  id : String
deriving DecidableEq, Repr

/-- `IPNet.Contains` for a candidate address with family `is4` and value
`v` (Go compares the masked network bytes with the masked candidate bytes,
and a length mismatch — a family mismatch here — is `false`). -/
def IPNet.containsAddr (n : IPNet) (is4 : Bool) (v : Nat) : Bool :=
  let bits : Nat := if n.is4 then 32 else 128
  n.is4 == is4 &&
    maskApply bits n.maskLen n.addr == maskApply bits n.maskLen v

/-- `w.Net.Contains(v.Net.IP)`: does list entry `w` cover the base address
of prefix `p`. -/
def covers (w : BlackIP) (p : IPNet) : Bool :=
  w.net.containsAddr p.is4 p.addr

/-- The comparison of `ByAge.Less` (`Dead.Before`), as the reflexive total
preorder `sort.Sort` establishes: for `i < j`, `¬ Less(j, i)`. -/
def byDead (a b : BlackIP) : Prop := a.dead ≤ b.dead

instance : DecidableRel byDead := fun a b => Nat.decLe a.dead b.dead

instance : IsTotal BlackIP byDead := ⟨fun a b => Nat.le_total a.dead b.dead⟩

instance : IsTrans BlackIP byDead := ⟨fun _ _ _ => Nat.le_trans⟩

/-- `sort.Sort(ByAge(l))`: a permutation of `l` that is sorted ascending by
`Dead` (`sort.Sort` is unstable; any such permutation satisfies every
property proved here, and insertion sort is one of them). -/
def sortByDead (l : List BlackIP) : List BlackIP := List.insertionSort byDead l

/-- Reply to a RouterOS `add` command: a failed run (with the error text) or
a done-reply carrying an optional `ret` field. -/
inductive RosReply where
  | fail : String → RosReply
  | done : Option String → RosReply
deriving DecidableEq, Repr

/-- Which of the three built-in containment checks of `AddIP` caused a
skip (each has its own log line in the code). -/
inductive SkipReason where
  | whitelist
  | blacklist
  | dynlist
deriving DecidableEq, Repr

/-- Result of one `AddIP` call: the returned `error` (`none` = `nil`), the
dynlist afterwards, whether `client.RunArgs` was reached, and which check
(if any) short-circuited the call. -/
structure AddResult where
  err : Option String
  dynlist : List BlackIP
  remoteCalled : Bool
  skipped : Option SkipReason
deriving DecidableEq, Repr

/-- `strings.Contains`: does `needle` occur contiguously in `hay`. -/
def hasSubstr (hay needle : List Char) : Bool :=
  if needle.isPrefixOf hay then true
  else
    match hay with
    | [] => false
    | _ :: t => hasSubstr t needle

/-- `Mikrotik.AddIP` (mikrotik.go).  `duration ≠ 0` runs the whitelist,
blacklist and dynlist containment checks in that order, each a silent
success; only then is the remote add issued.  A remote error containing
`"already have"` is a success; any other remote error is wrapped as
`addip=...`; a done-reply without `ret` is the missing-field error.  On a
successful dynamic add (with AutoDelete configured) the new entry is
appended and the dynlist re-sorted by expiry. -/
def addIP (whitelist blacklist dynlist : List BlackIP) (autoDelete : Bool)
    (now : Nat) (ip : IPNet) (duration : Nat) (reply : RosReply) : AddResult :=
  if duration ≠ 0 ∧ (whitelist.any (covers · ip)) then
    ⟨none, dynlist, false, some .whitelist⟩
  else if duration ≠ 0 ∧ (blacklist.any (covers · ip)) then
    ⟨none, dynlist, false, some .blacklist⟩
  else if duration ≠ 0 ∧ (dynlist.any (covers · ip)) then
    ⟨none, dynlist, false, some .dynlist⟩
  else
    match reply with
    | .fail msg =>
      if hasSubstr msg.toList "already have".toList then
        ⟨none, dynlist, true, none⟩
      else ⟨some ("addip=" ++ msg), dynlist, true, none⟩
    | .done none => ⟨some "missing `ret`", dynlist, true, none⟩
    | .done (some id) =>
      if duration ≠ 0 ∧ autoDelete then
        ⟨none, sortByDead (dynlist ++ [⟨ip, now + duration, id⟩]), true, none⟩
      else ⟨none, dynlist, true, none⟩

/-- Result of one `DelIP` call: the returned `error` and the dynlist
afterwards. -/
structure DelResult where
  err : Option String
  dynlist : List BlackIP
deriving DecidableEq, Repr

/-- `Mikrotik.DelIP` (mikrotik.go).  `remoteErr` is the outcome of the
remote `remove`.  On remote success with AutoDelete configured the code
reads `mt.dynlist[0]` unconditionally — a runtime panic when the dynlist is
empty — and pops the head when its row identifier matches. -/
def delIP (dynlist : List BlackIP) (autoDelete : Bool) (ip : BlackIP)
    (remoteErr : Option String) : RunResult DelResult :=
  match remoteErr with
  | some e => .ok ⟨some e, dynlist⟩
  | none =>
    if autoDelete then
      match dynlist with
      | [] => .panic -- Go: index out of range on mt.dynlist[0]
      | h :: t => .ok ⟨none, if h.id == ip.id then t else h :: t⟩
    else .ok ⟨none, dynlist⟩

/-! ### getAddresslist -/

/-- One sentence of a RouterOS `getall` reply, as the code reads it:
`re.Map["address"]`, `re.Map["dynamic"] == "true"`, the optional
`re.Map["timeout"]`, and `re.Map[".id"]`. -/
structure ReplyRow where
  address : String
  dynamic : Bool
  timeout : Option String
  id : String
deriving DecidableEq, Repr

/-- The device's address-list state, per API namespace and list name. -/
structure Device where
  v4rows : String → List ReplyRow
  v6rows : String → List ReplyRow

/-- `Mikrotik.toDuration` (mikrotik.go): a dynamic entry's absolute expiry
is now plus its parsed relative timeout; a dynamic entry without a timeout
panics; a static entry maps to the zero time. -/
def toDuration (now : Nat) (row : ReplyRow) : RunResult Nat :=
  if row.dynamic then
    match row.timeout with
    | some t => .ok (now + timeoutToDuration t)
    | none => .panic
  else .ok 0

/-- The row-parsing loop of `getAddresslist`: rows whose address fails
`parseCIDR` are skipped, others contribute a `BlackIP`. -/
def parseRows (now : Nat) : List ReplyRow → RunResult (List BlackIP)
  | [] => .ok []
  | row :: rest =>
    match parseCIDR row.address with
    | none => parseRows now rest
    | some ip =>
      (toDuration now row).bind fun dead =>
        (parseRows now rest).bind fun l => .ok (⟨ip, dead, row.id⟩ :: l)

/-- `Mikrotik.getAddresslist` (mikrotik.go): fetch the IPv4 then the IPv6
namespace of `mapname`, parse the rows, and sort the combined result by
expiry. -/
def getAddresslist (dev : Device) (now : Nat) (mapname : String) :
    RunResult (List BlackIP) :=
  (parseRows now (dev.v4rows mapname)).bind fun l4 =>
    (parseRows now (dev.v6rows mapname)).bind fun l6 =>
      .ok (sortByDead (l4 ++ l6))

/-! ### populateBanlist -/

/-- The list-building loops of `populateBanlist`: a `"@name"` spec imports
another device address-list (skipped with a log line when it names the
managed banlist itself), otherwise the spec must parse as a prefix and
becomes a config-sourced permanent entry with the `.gcfg` sentinel row id;
anything else aborts construction. -/
def buildList (dev : Device) (now : Nat) (banlist : String) (kind : String) :
    List String → RunResult (List BlackIP)
  | [] => .ok []
  | v :: rest =>
    -- strings.HasPrefix(v, "@"), and v[1:]: "@" is a single byte.
    if v.toList.head? = some '@' then
      let name : String := ⟨v.toList.drop 1⟩
      if name = banlist then buildList dev now banlist kind rest
      else
        (getAddresslist dev now name).bind fun l =>
          (buildList dev now banlist kind rest).bind fun l2 => .ok (l ++ l2)
    else
      match parseCIDR v with
      | some ip =>
        (buildList dev now banlist kind rest).bind fun l2 =>
          .ok (⟨ip, 0, ".gcfg"⟩ :: l2)
      | none => .err ("Unable to parse " ++ kind ++ " prefix/ip " ++ v)

/-- The keys of the `blackmap` built from the permanent blacklist
(`map[string]*BlackIP` keyed by `Net.String()`; duplicate canonical prefixes
collapse onto one key). -/
def blackKeys (l : List BlackIP) : List IPNet :=
  l.foldl (fun ks v => if ks.contains v.net then ks else ks ++ [v.net]) []

/-- State threaded through the reconciliation loop: the not-yet-matched
blackmap keys, the dynlist being accumulated, and the remote deletes issued
so far (in order). -/
structure ReconState where
  blackmap : List IPNet
  dynlist : List BlackIP
  deletes : List BlackIP
deriving DecidableEq, Repr

/-- A `mt.DelIP(v)` call inside `populateBanlist`: the remote outcome comes
from the oracle `delO`; a returned error aborts reconciliation
(`return err`), and the delete is recorded. -/
def reconDelete (autoDel : Bool) (delO : BlackIP → Option String)
    (st : ReconState) (v : BlackIP) : RunResult ReconState :=
  (delIP st.dynlist autoDel v (delO v)).bind fun r =>
    match r.err with
    | some e => .err e
    | none => .ok ⟨st.blackmap, r.dynlist, st.deletes ++ [v]⟩

/-- The per-entry body of the `addresslist:` loop of `populateBanlist`. -/
def processEntry (whitelist : List BlackIP) (autoDel : Bool)
    (delO : BlackIP → Option String) (st : ReconState) (v : BlackIP) :
    RunResult ReconState :=
  if whitelist.any (covers · v.net) then reconDelete autoDel delO st v
  else if v.dead = 0 then
    if st.blackmap.contains v.net then
      .ok ⟨st.blackmap.erase v.net, st.dynlist, st.deletes⟩
    else reconDelete autoDel delO st v
  else if st.blackmap.contains v.net then reconDelete autoDel delO st v
  else .ok ⟨st.blackmap, st.dynlist ++ [v], st.deletes⟩

/-- The `addresslist:` loop itself. -/
def reconLoop (whitelist : List BlackIP) (autoDel : Bool)
    (delO : BlackIP → Option String) :
    ReconState → List BlackIP → RunResult ReconState
  | st, [] => .ok st
  | st, v :: vs =>
    (processEntry whitelist autoDel delO st v).bind fun st2 =>
      reconLoop whitelist autoDel delO st2 vs

/-- The final loop of `populateBanlist`: every still-unmatched blackmap key
is pushed with `AddIP(v.Net, 0, "")`; an error aborts.  (Go iterates the map
in unspecified order; the claims proved below only use membership, so
insertion order is fixed here.)  Returns the dynlist and the adds issued. -/
def finalAdds (wlist blist : List BlackIP) (autoDel : Bool) (now : Nat)
    (addO : IPNet → RosReply) (dyn : List BlackIP) :
    List IPNet → RunResult (List BlackIP × List IPNet)
  | [] => .ok (dyn, [])
  | k :: ks =>
    match (addIP wlist blist dyn autoDel now k 0 (addO k)).err with
    | some e => .err e
    | none =>
      (finalAdds wlist blist autoDel now addO
          (addIP wlist blist dyn autoDel now k 0 (addO k)).dynlist ks).bind fun p =>
        .ok (p.1, k :: p.2)

/-- Everything `populateBanlist` produces: the two policy lists, the final
dynlist, and the remote deletes/adds issued during reconciliation. -/
structure ReconOutcome where
  whitelist : List BlackIP
  blacklist : List BlackIP
  dynlist : List BlackIP
  deletes : List BlackIP
  adds : List IPNet
deriving DecidableEq, Repr

/-- `populateBanlist` after its two list-building loops: build the blackmap,
fail on any whitelist/blacklist conflict, then fetch the managed list and
reconcile. -/
def populateAfterBuild (dev : Device) (now : Nat) (banlist : String)
    (wlist blist : List BlackIP) (autoDel : Bool)
    (delO : BlackIP → Option String) (addO : IPNet → RosReply) :
    RunResult ReconOutcome :=
  let bmap := blackKeys blist
  if wlist.any (fun w => bmap.contains w.net) then
    .err "Conflicting whitelist/blacklist entry"
  else
    (getAddresslist dev now banlist).bind fun entries =>
      (reconLoop wlist autoDel delO ⟨bmap, [], []⟩ entries).bind fun st =>
        (finalAdds wlist blist autoDel now addO st.dynlist st.blackmap).bind fun p =>
          .ok ⟨wlist, blist, p.1, st.deletes, p.2⟩

/-- `Mikrotik.populateBanlist` (mikrotik.go). -/
def populateBanlist (dev : Device) (now : Nat) (banlist : String)
    (wl bl : List String) (autoDel : Bool)
    (delO : BlackIP → Option String) (addO : IPNet → RosReply) :
    RunResult ReconOutcome :=
  (buildList dev now banlist "whitelist" wl).bind fun wlist =>
    (buildList dev now banlist "blacklist" bl).bind fun blist =>
      populateAfterBuild dev now banlist wlist blist autoDel delO addO

/-- `NewMikrotik` with dial and login succeeding (the RouterOS client is an
external collaborator): the construction succeeds, yielding the device
instance's initial state, exactly when `populateBanlist` succeeds; on an
error no instance is produced. -/
def newMikrotik (dev : Device) (now : Nat) (banlist : String)
    (wl bl : List String) (autoDel : Bool)
    (delO : BlackIP → Option String) (addO : IPNet → RosReply) :
    RunResult ReconOutcome :=
  populateBanlist dev now banlist wl bl autoDel delO addO

/-! ### The expiry scheduler (`autoDelete`) -/

def hourNs : Nat := 3600000000000

/-- The wake-time computation at the top of every `autoDelete` iteration:
the expiry of the dynlist head, or now plus one hour when the dynlist is
empty. -/
def schedWake (dyn : List BlackIP) (now : Nat) : Nat :=
  match dyn with
  | [] => now + hourNs
  | h :: _ => h.dead

/-- What unblocked an `autoDelete` iteration: the expiry timer fired, a
new-data notification arrived, or the channel was closed (shutdown). -/
inductive SchedEvent where
  | timerFired
  | notified
  | closedChan
deriving DecidableEq, Repr

/-- One iteration of the `autoDelete` loop after its wait.  A notification
or shutdown deletes nothing.  A timer fire with a non-empty dynlist invokes
`DelIP` on exactly the head entry (a remote error there is `log.Fatalln`,
modeled as `.err`).  Returns the dynlist afterwards and the entries deleted
by this iteration. -/
def schedStep (dyn : List BlackIP) (ev : SchedEvent)
    (delO : BlackIP → Option String) : RunResult (List BlackIP × List BlackIP) :=
  match ev with
  | .notified => .ok (dyn, [])
  | .closedChan => .ok (dyn, [])
  | .timerFired =>
    match dyn with
    | [] => .ok (dyn, [])
    | h :: _ =>
      (delIP dyn true h (delO h)).bind fun r =>
        match r.err with
        | some e => .err e
        | none => .ok (r.dynlist, [h])

/-! ### Steady-state operation sequences -/

/-- One steady-state mutation: an `AddIP` (with its reply) or a `DelIP`
(with its remote outcome). -/
inductive MtOp where
  | add : IPNet → Nat → Nat → RosReply → MtOp
  | del : BlackIP → Option String → MtOp

/-- Effect of one mutation on the dynlist (an `AddIP` error leaves the
dynlist as it was and is returned to the caller; the process continues). -/
def applyOp (wlist blist : List BlackIP) (autoDel : Bool)
    (dyn : List BlackIP) : MtOp → RunResult (List BlackIP)
  | .add ip dur now reply => .ok (addIP wlist blist dyn autoDel now ip dur reply).dynlist
  | .del b re => (delIP dyn autoDel b re).bind fun r => .ok r.dynlist

/-- Effect of a sequence of mutations on the dynlist. -/
def applyOps (wlist blist : List BlackIP) (autoDel : Bool) :
    List MtOp → List BlackIP → RunResult (List BlackIP)
  | [], dyn => .ok dyn
  | op :: ops, dyn =>
    (applyOp wlist blist autoDel dyn op).bind fun d =>
      applyOps wlist blist autoDel ops d

/-! ### Spec-side reconciliation (for the refinement claim)

Modelled from the spec: the per-entry case analysis of §4.1 step 4, written
directly from its words — whitelist coverage first (remote delete, skip the
rest), then the permanent/dynamic versus blackmap-membership four-way split.
This is the comparison point for the code's `reconLoop`. -/

/-- State of the spec-side reconciliation fold. -/
structure SpecReconState where
  blackmap : List IPNet
  dynlist : List BlackIP
  deletes : List BlackIP
deriving DecidableEq, Repr

/-- Modelled from the spec: one entry of §4.1 step 4. -/
def reconSpecStep (whitelist : List BlackIP) (st : SpecReconState)
    (v : BlackIP) : SpecReconState :=
  if whitelist.any (covers · v.net) then
    ⟨st.blackmap, st.dynlist, st.deletes ++ [v]⟩
  else if v.dead = 0 then
    if st.blackmap.contains v.net then
      ⟨st.blackmap.erase v.net, st.dynlist, st.deletes⟩
    else ⟨st.blackmap, st.dynlist, st.deletes ++ [v]⟩
  else if st.blackmap.contains v.net then
    ⟨st.blackmap, st.dynlist, st.deletes ++ [v]⟩
  else ⟨st.blackmap, st.dynlist ++ [v], st.deletes⟩

/-- Modelled from the spec: the whole of §4.1 step 4, in fetch order. -/
def reconSpec (whitelist : List BlackIP) (st : SpecReconState)
    (entries : List BlackIP) : SpecReconState :=
  entries.foldl (reconSpecStep whitelist) st

/-- View of the code-side loop state as a spec-side state. -/
def ReconState.toSpec (st : ReconState) : SpecReconState :=
  ⟨st.blackmap, st.dynlist, st.deletes⟩

/-- A device reply consistent with the entry being (or ending up) present:
either the duplicate-class error (`"already have"` somewhere in the message)
or a done-reply carrying a row identifier. -/
def dupOrId (r : RosReply) : Prop :=
  (∃ m, r = .fail m ∧ hasSubstr m.toList "already have".toList = true) ∨
  (∃ i, r = .done (some i))

/-! ### Concrete fixtures (used to instantiate the theorems below)

A device whose managed list holds one permanent entry `10.0.0.0/24` (row
`*1`) and one dynamic entry `203.0.113.5` with a 1-hour timeout (row `*2`),
a blacklist configured with exactly that permanent prefix, and oracles whose
remote calls always succeed. -/

def devW : Device :=
  ⟨fun _ => [⟨"10.0.0.0/24", false, none, "*1"⟩, ⟨"203.0.113.5", true, some "1h", "*2"⟩],
   fun _ => []⟩

def blistW : List BlackIP := [⟨⟨true, 0x0A000000, 24⟩, 0, ".gcfg"⟩]

def delOW : BlackIP → Option String := fun _ => none

def addOW : IPNet → RosReply := fun _ => .done (some "*9")

/-- What `getAddresslist devW 1000 "blacklist"` yields (checked below). -/
def entriesW : List BlackIP :=
  [⟨⟨true, 0x0A000000, 24⟩, 0, "*1"⟩,
   ⟨⟨true, 0xCB007105, 32⟩, 3600000001000, "*2"⟩]

/-- What reconciliation of `devW` against `blistW` yields (checked below):
the permanent entry is matched, the dynamic entry is kept, nothing is
deleted or added. -/
def outW : ReconOutcome :=
  ⟨[], blistW, [⟨⟨true, 0xCB007105, 32⟩, 3600000001000, "*2"⟩], [], []⟩

-- Validation against the repo's TestParseCIDR vectors.
set_option maxRecDepth 100000

example : parseCIDR "192.168.10.0" = some ⟨true, 0xC0A80A00, 32⟩ := rfl
example : parseCIDR "192.168.10.5/24" = some ⟨true, 0xC0A80A00, 24⟩ := rfl
example : parseCIDR "192.168.10.0/0" = some ⟨true, 0, 0⟩ := rfl
example : parseCIDR "256.168.10.0/32" = none := rfl
example : parseCIDR "192.168.10.0/33" = none := rfl
example : parseCIDR "192.168.10.20.1" = none := rfl
example : parseCIDR "192.168.10" = none := rfl
example : parseCIDR "not_an_ip" = none := rfl
example : parseCIDR "fe80:0123:4567::1234:5678:abce:f123/128" =
    some ⟨false, 0xfe8001234567000012345678abcef123, 128⟩ := rfl
example : parseCIDR "fe80:0123:4567::1234:5678:abce:f123/64" =
    some ⟨false, 0xfe80012345670000 * 2 ^ 64, 64⟩ := rfl
example : parseCIDR "fe80:g123::/64" = none := rfl
example : parseCIDR "fe80:0123:4567:abcd:1234:5678:abce:f123:6545/64" = none := rfl
example : parseCIDR "fe80:0123:4567::1234:5678:abce:f123/129" = none := rfl

-- Validation against the repo's TestDecodeTimes and TestStringify vectors.
example : goParseDuration "1s" = some 1000000000 := rfl
example : goParseDuration "3m" = some 180000000000 := rfl
example : goParseDuration "5h" = some 18000000000000 := rfl
example : goParseDuration "5h3m" = some 18180000000000 := rfl
example : goParseDuration "5h3m40s" = some 18220000000000 := rfl
example : goParseDuration "10d" = none := rfl
example : goParseDuration "10" = none := rfl
example : goParseDuration "10x" = none := rfl
example : goParseDuration "1h30m0s" = some 5400000000000 := rfl
example : goParseDuration "1.5s" = some 1500000000 := rfl
example : durationString 1000000000 = "1s" := rfl
example : durationString 180000000000 = "3m0s" := rfl
example : durationString (5 * 3600000000000 + 4 * 60000000000 + 3000000000) = "5h4m3s" := rfl
example : durationString 5400000000000 = "1h30m0s" := rfl
example : durationString 1500000 = "1.5ms" := rfl
example : durationString 0 = "0s" := rfl
example : timeoutToDuration "28w4d23h59m56s" =
    28 * 7 * 86400000000000 + 4 * 86400000000000 + 23 * 3600000000000 +
      59 * 60000000000 + 56 * 1000000000 := rfl
example : timeoutToDuration "10d" = 10 * 86400000000000 := rfl
example : timeoutToDuration "10" = 0 := rfl
example : timeoutToDuration "10x" = 0 := rfl
example : timeoutToDuration "3m40s" = 220000000000 := rfl

/-! ## Claim theorems -/

@[simp] theorem RunResult.bind_ok {α β : Type} (a : α) (f : α → RunResult β) :
    (RunResult.ok a).bind f = f a := rfl

@[simp] theorem RunResult.bind_err {α β : Type} (e : String) (f : α → RunResult β) :
    (RunResult.err e : RunResult α).bind f = .err e := rfl

@[simp] theorem RunResult.bind_panic {α β : Type} (f : α → RunResult β) :
    (RunResult.panic : RunResult α).bind f = .panic := rfl

/-- C6 (counterexample): the claim "parsing `10d` succeeds with only the day
component contributing, and parsing `10` or `10x` fails as a parse error"
is false of the code at these inputs: the duration parser the repo uses for
configuration (`Duration.UnmarshalText`, i.e. `time.ParseDuration`) rejects
`"10d"` (the repo's own `TestDecodeTimes` expects this), while the only
parser that accepts a day component — the `regTimeout` device-timeout
grammar — maps `"10"` and `"10x"` to a zero duration without any error,
because every group of the regexp is optional and an empty match always
succeeds. -/
theorem c6_counterexample :
    durationUnmarshalText "10d" = none ∧
    timeoutToDuration "10" = 0 ∧ timeoutToDuration "10x" = 0 :=
  ⟨rfl, rfl, rfl⟩

/-- C6 (amended): formatting 1h30m0s and re-parsing it round-trips; `"10d"`
is accepted (day component only) by the device-timeout grammar `regTimeout`
but rejected by `Duration.UnmarshalText`; `"10"` and `"10x"` are rejected by
`Duration.UnmarshalText`, while the device-timeout grammar matches them as
empty and yields a zero duration with no error. -/
theorem c6_duration_grammar :
    durationString 5400000000000 = "1h30m0s" ∧
    goParseDuration "1h30m0s" = some 5400000000000 ∧
    durationUnmarshalText "10d" = none ∧
    timeoutToDuration "10d" = 864000000000000 ∧
    durationUnmarshalText "10" = none ∧
    durationUnmarshalText "10x" = none ∧
    timeoutToDuration "10" = 0 ∧
    timeoutToDuration "10x" = 0 :=
  ⟨rfl, rfl, rfl, rfl, rfl, rfl, rfl, rfl⟩

/-- Every canonical prefix of the blacklist is a key of the blackmap. -/
theorem blackKeys_aux (l : List BlackIP) (ks : List IPNet) (p : IPNet)
    (h : p ∈ ks ∨ p ∈ l.map (·.net)) :
    p ∈ l.foldl (fun ks v => if ks.contains v.net then ks else ks ++ [v.net]) ks := by
  induction l generalizing ks with
  | nil => simpa using h
  | cons v vs ih =>
    simp only [List.foldl_cons]
    rw [List.map_cons] at h
    apply ih
    by_cases hc : ks.contains v.net = true
    · rw [if_pos hc]
      rcases h with h | h
      · exact Or.inl h
      · rcases List.mem_cons.mp h with h | h
        · exact Or.inl (by rw [h]; exact List.elem_iff.mp hc)
        · exact Or.inr h
    · rw [if_neg hc]
      rcases h with h | h
      · exact Or.inl (List.mem_append.mpr (Or.inl h))
      · rcases List.mem_cons.mp h with h | h
        · exact Or.inl (List.mem_append.mpr (Or.inr (by simp [h])))
        · exact Or.inr h

theorem mem_blackKeys_of (l : List BlackIP) (p : IPNet)
    (h : p ∈ l.map (·.net)) : p ∈ blackKeys l :=
  blackKeys_aux l [] p (Or.inr h)

/-- C9: if some canonical prefix occurs on both the built whitelist and the
built blacklist, `populateBanlist` fails with the conflict error — for every
device state and every remote-call oracle, i.e. before any reconciliation
traffic — and `NewMikrotik` produces no instance. -/
theorem c9_conflict_fatal :
    ∀ (dev : Device) (now : Nat) (banlist : String) (wl bl : List String)
      (wlist blist : List BlackIP) (autoDel : Bool)
      (delO : BlackIP → Option String) (addO : IPNet → RosReply) (p : IPNet),
    buildList dev now banlist "whitelist" wl = .ok wlist →
    buildList dev now banlist "blacklist" bl = .ok blist →
    p ∈ wlist.map (·.net) → p ∈ blist.map (·.net) →
    populateBanlist dev now banlist wl bl autoDel delO addO =
        .err "Conflicting whitelist/blacklist entry" ∧
    ∀ out, newMikrotik dev now banlist wl bl autoDel delO addO ≠ .ok out := by
  intro dev now banlist wl bl wlist blist autoDel delO addO p hwl hbl hpw hpb
  have hany : wlist.any (fun w => (blackKeys blist).contains w.net) = true := by
    rcases List.mem_map.mp hpw with ⟨w, hwmem, hwnet⟩
    refine List.any_eq_true.mpr ⟨w, hwmem, ?_⟩
    rw [hwnet]
    exact List.elem_iff.mpr (mem_blackKeys_of blist p hpb)
  have hp : populateBanlist dev now banlist wl bl autoDel delO addO =
      .err "Conflicting whitelist/blacklist entry" := by
    unfold populateBanlist
    rw [hwl, hbl]
    simp only [RunResult.bind_ok]
    unfold populateAfterBuild
    rw [if_pos hany]
  exact ⟨hp, fun out hko => by rw [newMikrotik, hp] at hko; cases hko⟩

/-- The first `'/'` split of a slash-free string. -/
theorem splitSlash_of_not_mem (cs : List Char) (h : '/' ∉ cs) :
    splitSlash cs = none := by
  induction cs with
  | nil => rfl
  | cons c r ih =>
    have hc : ¬c = '/' := fun hc => h (by rw [hc]; exact List.mem_cons_self _ _)
    have hr : '/' ∉ r := fun hm => h (List.mem_cons_of_mem c hm)
    simp only [splitSlash]
    rw [if_neg hc, ih hr]
    rfl

theorem splitSlash_append (cs ms : List Char) (h : '/' ∉ cs) :
    splitSlash (cs ++ '/' :: ms) = some (cs, ms) := by
  induction cs with
  | nil => simp [splitSlash]
  | cons c r ih =>
    have hc : ¬c = '/' := fun hc => h (by rw [hc]; exact List.mem_cons_self _ _)
    have hr : '/' ∉ r := fun hm => h (List.mem_cons_of_mem c hm)
    rw [List.cons_append]
    simp only [splitSlash]
    rw [if_neg hc, ih hr]
    rfl

/-- C10: `parseCIDR` canonicalizes.  With a slash and a parseable address
and in-range mask the result is the network with all host bits masked off
(`maskApply`); a bare parseable IP gets the full-length mask of its family;
an unparseable address, an unparseable mask, or an out-of-range mask yield
`nil` without faulting.  The concrete conjunct is the host-bit example from
the repo's test table (`192.168.10.5/24` → `192.168.10.0/24`). -/
theorem c10_parsecidr_canonicalizes :
    ∀ (cs ms : List Char) (v : Nat) (n : Int), '/' ∉ cs →
    (goParseIPChars cs = some v →
      parseCIDRChars cs = some ⟨ipFam v, ipBase v, ipBits v⟩) ∧
    (goParseIPChars cs = some v → goAtoiChars ms = some n →
      ¬(n < 0 ∨ n > (ipBits v : Int)) →
      parseCIDRChars (cs ++ '/' :: ms) =
        some ⟨ipFam v, maskApply (ipBits v) n.toNat (ipBase v), n.toNat⟩) ∧
    (goParseIPChars cs = none → parseCIDRChars cs = none ∧
      parseCIDRChars (cs ++ '/' :: ms) = none) ∧
    (goAtoiChars ms = none → parseCIDRChars (cs ++ '/' :: ms) = none) ∧
    (goParseIPChars cs = some v → goAtoiChars ms = some n →
      (n < 0 ∨ n > (ipBits v : Int)) → parseCIDRChars (cs ++ '/' :: ms) = none) ∧
    parseCIDR "192.168.10.5/24" = some ⟨true, 0xC0A80A00, 24⟩ := by
  intro cs ms v n hcs
  refine ⟨?_, ?_, ?_, ?_, ?_, rfl⟩
  · intro hv
    simp only [parseCIDRChars, splitSlash_of_not_mem cs hcs, hv, Option.map_some]
    cases hto : goTo4 v with
    | none => simp [ipFam, ipBase, ipBits, hto]
    | some v4 => simp [ipFam, ipBase, ipBits, hto]
  · intro hv hn hrange
    simp only [parseCIDRChars, splitSlash_append cs ms hcs, hv, hn]
    rw [if_neg (by simpa [ipFam, ipBits] using hrange)]
    cases hto : goTo4 v with
    | none => simp [ipFam, ipBase, ipBits, hto]
    | some v4 => simp [ipFam, ipBase, ipBits, hto]
  · intro hv
    constructor
    · simp only [parseCIDRChars, splitSlash_of_not_mem cs hcs, hv]
      rfl
    · simp only [parseCIDRChars, splitSlash_append cs ms hcs, hv]
  · intro hm
    simp only [parseCIDRChars, splitSlash_append cs ms hcs, hm]
    cases goParseIPChars cs <;> rfl
  · intro hv hn hrange
    simp only [parseCIDRChars, splitSlash_append cs ms hcs, hv, hn]
    rw [if_pos (by simpa [ipFam, ipBits] using hrange)]

/-- A prefix covers its own base address: both sides of the comparison are
masked, so this needs no canonicality assumption. -/
theorem covers_self (dead : Nat) (id : String) (ip : IPNet) :
    covers ⟨ip, dead, id⟩ ip = true := by
  simp [covers, IPNet.containsAddr]

theorem sortByDead_perm (l : List BlackIP) : (sortByDead l).Perm l :=
  List.perm_insertionSort _ l

theorem countP_sortByDead (p : BlackIP → Bool) (l : List BlackIP) :
    (sortByDead l).countP p = l.countP p :=
  (sortByDead_perm l).countP_eq p

theorem mem_sortByDead {b : BlackIP} {l : List BlackIP} :
    b ∈ sortByDead l ↔ b ∈ l :=
  (sortByDead_perm l).mem_iff

theorem sorted_sortByDead (l : List BlackIP) : (sortByDead l).Sorted byDead :=
  List.sorted_insertionSort _ l

/-- `getAddresslist` output is sorted ascending by expiry. -/
theorem getAddresslist_sorted (dev : Device) (now : Nat) (name : String)
    (l : List BlackIP) (h : getAddresslist dev now name = .ok l) :
    l.Sorted byDead := by
  unfold getAddresslist at h
  cases h4 : parseRows now (dev.v4rows name) with
  | panic => rw [h4] at h; simp only [RunResult.bind_panic] at h; exact RunResult.noConfusion h
  | err e => rw [h4] at h; simp only [RunResult.bind_err] at h; exact RunResult.noConfusion h
  | ok l4 =>
    rw [h4] at h
    simp only [RunResult.bind_ok] at h
    cases h6 : parseRows now (dev.v6rows name) with
    | panic => rw [h6] at h; simp only [RunResult.bind_panic] at h; exact RunResult.noConfusion h
    | err e => rw [h6] at h; simp only [RunResult.bind_err] at h; exact RunResult.noConfusion h
    | ok l6 =>
      rw [h6] at h
      simp only [RunResult.bind_ok] at h
      cases h
      exact sorted_sortByDead _

/-- The dynlist after a successful `DelIP` is a sublist of the one before
(unchanged, or the head popped). -/
theorem delIP_sublist (dyn : List BlackIP) (aD : Bool) (b : BlackIP)
    (re : Option String) (r : DelResult) (h : delIP dyn aD b re = .ok r) :
    List.Sublist r.dynlist dyn := by
  cases re with
  | some e => cases h; exact List.Sublist.refl _
  | none =>
    unfold delIP at h
    cases aD with
    | false => simp at h; cases h; exact List.Sublist.refl _
    | true =>
      simp only [if_true] at h
      cases dyn with
      | nil => exact RunResult.noConfusion h
      | cons hd t =>
        cases h
        by_cases hid : (hd.id == b.id) = true
        · rw [if_pos hid]
          exact List.sublist_cons_self hd t
        · rw [if_neg hid]

/-- A successful `processEntry` extends the dynlist by at most the entry
itself (and may pop the head inside an inner `DelIP`). -/
theorem processEntry_dyn_sublist (wl : List BlackIP) (aD : Bool)
    (delO : BlackIP → Option String) (st : ReconState) (v : BlackIP)
    (st2 : ReconState) (h : processEntry wl aD delO st v = .ok st2) :
    List.Sublist st2.dynlist (st.dynlist ++ [v]) := by
  have hdel : ∀ (hq : reconDelete aD delO st v = .ok st2),
      List.Sublist st2.dynlist (st.dynlist ++ [v]) := by
    intro hq
    unfold reconDelete at hq
    cases hr : delIP st.dynlist aD v (delO v) with
    | panic => rw [hr] at hq; exact RunResult.noConfusion hq
    | err e => rw [hr] at hq; exact RunResult.noConfusion hq
    | ok r =>
      rw [hr] at hq
      simp only [RunResult.bind_ok] at hq
      cases he : r.err with
      | some e => rw [he] at hq; exact RunResult.noConfusion hq
      | none =>
        rw [he] at hq
        cases hq
        exact (delIP_sublist _ _ _ _ _ hr).trans (List.sublist_append_left _ _)
  unfold processEntry at h
  by_cases hwc : (wl.any (covers · v.net)) = true
  · rw [if_pos hwc] at h
    exact hdel h
  · rw [if_neg hwc] at h
    by_cases hperm : v.dead = 0
    · rw [if_pos hperm] at h
      by_cases hmem : (st.blackmap.contains v.net) = true
      · rw [if_pos hmem] at h
        cases h
        exact List.sublist_append_left _ _
      · rw [if_neg hmem] at h
        exact hdel h
    · rw [if_neg hperm] at h
      by_cases hmem : (st.blackmap.contains v.net) = true
      · rw [if_pos hmem] at h
        exact hdel h
      · rw [if_neg hmem] at h
        cases h
        exact List.Sublist.refl _

/-- Along a successful reconciliation loop the dynlist stays a sublist of
the initial dynlist followed by the processed entries. -/
theorem reconLoop_dyn_sublist (wl : List BlackIP) (aD : Bool)
    (delO : BlackIP → Option String) :
    ∀ (entries : List BlackIP) (st out : ReconState),
    reconLoop wl aD delO st entries = .ok out →
    List.Sublist out.dynlist (st.dynlist ++ entries) := by
  intro entries
  induction entries with
  | nil =>
    intro st out h
    cases h
    rw [List.append_nil]
  | cons v vs ih =>
    intro st out h
    unfold reconLoop at h
    cases hp : processEntry wl aD delO st v with
    | panic => rw [hp] at h; exact RunResult.noConfusion h
    | err e => rw [hp] at h; exact RunResult.noConfusion h
    | ok st2 =>
      rw [hp] at h
      simp only [RunResult.bind_ok] at h
      have h1 := ih st2 out h
      have h2 := processEntry_dyn_sublist wl aD delO st v st2 hp
      have h3 : List.Sublist (st2.dynlist ++ vs) ((st.dynlist ++ [v]) ++ vs) :=
        List.Sublist.append h2 (List.Sublist.refl vs)
      rw [List.append_assoc, List.singleton_append] at h3
      exact h1.trans h3

/-- A permanent add (`duration = 0`, the reconciliation final loop) never
touches the dynlist. -/
theorem addIP_zero_dynlist (wlist blist dyn : List BlackIP) (aD : Bool)
    (now : Nat) (k : IPNet) (r : RosReply) :
    (addIP wlist blist dyn aD now k 0 r).dynlist = dyn := by
  unfold addIP
  rw [if_neg (by simp), if_neg (by simp), if_neg (by simp)]
  split
  · split <;> rfl
  · rfl
  · rw [if_neg (by simp)]

/-- A successful reconciliation final loop leaves the dynlist unchanged and
issues exactly one add per remaining blackmap key. -/
theorem finalAdds_ok (wlist blist : List BlackIP) (aD : Bool) (now : Nat)
    (addO : IPNet → RosReply) :
    ∀ (ks : List IPNet) (dyn : List BlackIP) (p : List BlackIP × List IPNet),
    finalAdds wlist blist aD now addO dyn ks = .ok p → p.1 = dyn ∧ p.2 = ks := by
  intro ks
  induction ks with
  | nil =>
    intro dyn p h
    cases h
    exact ⟨rfl, rfl⟩
  | cons k ks ih =>
    intro dyn p h
    unfold finalAdds at h
    cases he : (addIP wlist blist dyn aD now k 0 (addO k)).err with
    | some e => rw [he] at h; exact RunResult.noConfusion h
    | none =>
      rw [he] at h
      cases hf : finalAdds wlist blist aD now addO
          (addIP wlist blist dyn aD now k 0 (addO k)).dynlist ks with
      | panic => rw [hf] at h; exact RunResult.noConfusion h
      | err e => rw [hf] at h; exact RunResult.noConfusion h
      | ok q =>
        rw [hf] at h
        simp only [RunResult.bind_ok] at h
        cases h
        rw [addIP_zero_dynlist] at hf
        have := ih dyn q hf
        exact ⟨this.1, by rw [this.2]⟩

/-- `AddIP` keeps the dynlist sorted: it either leaves it alone or replaces
it with a freshly sorted list. -/
theorem addIP_sorted (wlist blist dyn : List BlackIP) (aD : Bool) (now : Nat)
    (ip : IPNet) (dur : Nat) (r : RosReply) (h : dyn.Sorted byDead) :
    ((addIP wlist blist dyn aD now ip dur r).dynlist).Sorted byDead := by
  unfold addIP
  repeat' split
  all_goals first
    | exact h
    | exact List.sorted_insertionSort _ _

/-- C2: the Dynlist is sorted ascending by expiry after reconciliation, and
stays sorted across any successful sequence of Add/Delete operations. -/
theorem c2_dynlist_sorted :
    (∀ (dev : Device) (now : Nat) (banlist : String)
      (wlist blist : List BlackIP) (autoDel : Bool)
      (delO : BlackIP → Option String) (addO : IPNet → RosReply)
      (out : ReconOutcome),
      populateAfterBuild dev now banlist wlist blist autoDel delO addO = .ok out →
      out.dynlist.Sorted byDead) ∧
    (∀ (wlist blist : List BlackIP) (autoDel : Bool) (ops : List MtOp)
      (dyn dyn' : List BlackIP),
      dyn.Sorted byDead → applyOps wlist blist autoDel ops dyn = .ok dyn' →
      dyn'.Sorted byDead) := by
  constructor
  · intro dev now banlist wlist blist autoDel delO addO out h
    unfold populateAfterBuild at h
    by_cases hc : (wlist.any fun w => (blackKeys blist).contains w.net) = true
    · rw [if_pos hc] at h
      exact RunResult.noConfusion h
    · rw [if_neg hc] at h
      cases hga : getAddresslist dev now banlist with
      | panic => rw [hga] at h; exact RunResult.noConfusion h
      | err e => rw [hga] at h; exact RunResult.noConfusion h
      | ok entries =>
        rw [hga] at h
        simp only [RunResult.bind_ok] at h
        cases hrl : reconLoop wlist autoDel delO ⟨blackKeys blist, [], []⟩ entries with
        | panic => rw [hrl] at h; exact RunResult.noConfusion h
        | err e => rw [hrl] at h; exact RunResult.noConfusion h
        | ok st =>
          rw [hrl] at h
          simp only [RunResult.bind_ok] at h
          cases hfa : finalAdds wlist blist autoDel now addO st.dynlist st.blackmap with
          | panic => rw [hfa] at h; exact RunResult.noConfusion h
          | err e => rw [hfa] at h; exact RunResult.noConfusion h
          | ok p =>
            rw [hfa] at h
            simp only [RunResult.bind_ok] at h
            cases h
            have hps := (finalAdds_ok wlist blist autoDel now addO _ _ _ hfa).1
            have hsub := reconLoop_dyn_sublist wlist autoDel delO entries _ st hrl
            simp only [List.nil_append] at hsub
            have hsorted := getAddresslist_sorted dev now banlist entries hga
            show p.1.Sorted byDead
            rw [hps]
            exact hsorted.sublist hsub
  · intro wlist blist autoDel ops
    induction ops with
    | nil =>
      intro dyn dyn' hs h
      cases h
      exact hs
    | cons op ops ih =>
      intro dyn dyn' hs h
      unfold applyOps at h
      cases hop : applyOp wlist blist autoDel dyn op with
      | panic => rw [hop] at h; exact RunResult.noConfusion h
      | err e => rw [hop] at h; exact RunResult.noConfusion h
      | ok d =>
        rw [hop] at h
        simp only [RunResult.bind_ok] at h
        refine ih d dyn' ?_ h
        cases op with
        | add ip dur now reply =>
          cases hop
          exact addIP_sorted _ _ _ _ _ _ _ _ hs
        | del b re =>
          simp only [applyOp] at hop
          cases hdel : delIP dyn autoDel b re with
          | panic => rw [hdel] at hop; exact RunResult.noConfusion hop
          | err e => rw [hdel] at hop; exact RunResult.noConfusion hop
          | ok r =>
            rw [hdel] at hop
            simp only [RunResult.bind_ok] at hop
            cases hop
            exact hs.sublist (delIP_sublist _ _ _ _ _ hdel)

/-- C4: two dynamic adds of the same prefix, each answered by the device
with either a row identifier or the duplicate-class error, both return
success and leave at most one Dynlist entry for that prefix; moreover if the
first call actually created the entry (done-reply with an id), the second
call short-circuits on the Dynlist containment check and makes no remote
call at all. -/
theorem c4_idempotent_add :
    ∀ (wlist blist dyn : List BlackIP) (now1 now2 : Nat) (ip : IPNet)
      (dur : Nat) (r1 r2 : RosReply),
    dur ≠ 0 →
    dyn.countP (fun b => b.net == ip) = 0 →
    dupOrId r1 → dupOrId r2 →
    (addIP wlist blist dyn true now1 ip dur r1).err = none ∧
    (addIP wlist blist (addIP wlist blist dyn true now1 ip dur r1).dynlist
        true now2 ip dur r2).err = none ∧
    (addIP wlist blist (addIP wlist blist dyn true now1 ip dur r1).dynlist
        true now2 ip dur r2).dynlist.countP (fun b => b.net == ip) ≤ 1 ∧
    (∀ i, r1 = .done (some i) →
      (addIP wlist blist (addIP wlist blist dyn true now1 ip dur r1).dynlist
          true now2 ip dur r2).remoteCalled = false) := by
  intro wlist blist dyn now1 now2 ip dur r1 r2 hdur hcount h1 h2
  by_cases hw : wlist.any (covers · ip) = true
  · have ha : ∀ (d : List BlackIP) (now : Nat) (r : RosReply),
        addIP wlist blist d true now ip dur r = ⟨none, d, false, some .whitelist⟩ := by
      intro d now r
      unfold addIP
      rw [if_pos ⟨hdur, hw⟩]
    simp only [ha]
    simp [hcount]
  · by_cases hb : blist.any (covers · ip) = true
    · have ha : ∀ (d : List BlackIP) (now : Nat) (r : RosReply),
          addIP wlist blist d true now ip dur r = ⟨none, d, false, some .blacklist⟩ := by
        intro d now r
        unfold addIP
        rw [if_neg (by simp [hw]), if_pos ⟨hdur, hb⟩]
      simp only [ha]
      simp [hcount]
    · by_cases hd : dyn.any (covers · ip) = true
      · have ha : ∀ (now : Nat) (r : RosReply),
            addIP wlist blist dyn true now ip dur r = ⟨none, dyn, false, some .dynlist⟩ := by
          intro now r
          unfold addIP
          rw [if_neg (by simp [hw]), if_neg (by simp [hb]), if_pos ⟨hdur, hd⟩]
        simp only [ha]
        simp [hcount]
      · -- the first call reaches the device
        rcases h1 with ⟨m1, hr1, hm1⟩ | ⟨i1, hr1⟩
        · -- duplicate-class error: success, dynlist unchanged
          have ha1 : addIP wlist blist dyn true now1 ip dur r1 = ⟨none, dyn, true, none⟩ := by
            rw [hr1]
            unfold addIP
            rw [if_neg (by simp [hw]), if_neg (by simp [hb]), if_neg (by simp [hd])]
            show (if hasSubstr m1.toList "already have".toList = true then
                (⟨none, dyn, true, none⟩ : AddResult)
              else ⟨some ("addip=" ++ m1), dyn, true, none⟩) = ⟨none, dyn, true, none⟩
            rw [if_pos hm1]
          rcases h2 with ⟨m2, hr2, hm2⟩ | ⟨i2, hr2⟩
          · have ha2 : addIP wlist blist dyn true now2 ip dur r2 = ⟨none, dyn, true, none⟩ := by
              rw [hr2]
              unfold addIP
              rw [if_neg (by simp [hw]), if_neg (by simp [hb]), if_neg (by simp [hd])]
              show (if hasSubstr m2.toList "already have".toList = true then
                  (⟨none, dyn, true, none⟩ : AddResult)
                else ⟨some ("addip=" ++ m2), dyn, true, none⟩) = ⟨none, dyn, true, none⟩
              rw [if_pos hm2]
            simp only [ha1, ha2]
            simp [hcount, hr1]
          · have ha2 : addIP wlist blist dyn true now2 ip dur r2 =
                ⟨none, sortByDead (dyn ++ [⟨ip, now2 + dur, i2⟩]), true, none⟩ := by
              rw [hr2]
              unfold addIP
              rw [if_neg (by simp [hw]), if_neg (by simp [hb]), if_neg (by simp [hd])]
              show (if dur ≠ 0 ∧ true = true then
                  (⟨none, sortByDead (dyn ++ [⟨ip, now2 + dur, i2⟩]), true, none⟩ : AddResult)
                else ⟨none, dyn, true, none⟩) = _
              rw [if_pos ⟨hdur, rfl⟩]
            simp only [ha1, ha2]
            simp [hcount, hr1, countP_sortByDead, List.countP_append]
        · -- first call created the entry; second short-circuits on the dynlist
          have ha1 : addIP wlist blist dyn true now1 ip dur r1 =
              ⟨none, sortByDead (dyn ++ [⟨ip, now1 + dur, i1⟩]), true, none⟩ := by
            rw [hr1]
            unfold addIP
            rw [if_neg (by simp [hw]), if_neg (by simp [hb]), if_neg (by simp [hd])]
            show (if dur ≠ 0 ∧ true = true then
                (⟨none, sortByDead (dyn ++ [⟨ip, now1 + dur, i1⟩]), true, none⟩ : AddResult)
              else ⟨none, dyn, true, none⟩) = _
            rw [if_pos ⟨hdur, rfl⟩]
          have hmem : (⟨ip, now1 + dur, i1⟩ : BlackIP) ∈
              sortByDead (dyn ++ [⟨ip, now1 + dur, i1⟩]) :=
            mem_sortByDead.mpr (List.mem_append.mpr (Or.inr (List.mem_singleton.mpr rfl)))
          have hany : (sortByDead (dyn ++ [⟨ip, now1 + dur, i1⟩])).any (covers · ip) = true :=
            List.any_eq_true.mpr ⟨_, hmem, covers_self _ _ _⟩
          have ha2 : addIP wlist blist (sortByDead (dyn ++ [⟨ip, now1 + dur, i1⟩]))
              true now2 ip dur r2 =
              ⟨none, sortByDead (dyn ++ [⟨ip, now1 + dur, i1⟩]), false, some .dynlist⟩ := by
            unfold addIP
            rw [if_neg (by simp [hw]), if_neg (by simp [hb]), if_pos ⟨hdur, hany⟩]
          simp only [ha1, ha2]
          simp [hcount, countP_sortByDead, List.countP_append]

/-- C5: for a dynamic add (`duration ≠ 0`) the three containment checks run
in the order whitelist, blacklist, dynlist; each match is a no-op success
(`nil` error, dynlist unchanged — so a whitelisted prefix never enters the
Dynlist — and no remote call).  `duration = 0` bypasses all three checks and
goes straight to the remote add. -/
theorem c5_whitelist_precedence :
    ∀ (wlist blist dyn : List BlackIP) (autoDel : Bool) (now : Nat)
      (ip : IPNet) (dur : Nat) (reply : RosReply),
    (dur ≠ 0 → wlist.any (covers · ip) = true →
      addIP wlist blist dyn autoDel now ip dur reply =
        ⟨none, dyn, false, some .whitelist⟩) ∧
    (dur ≠ 0 → wlist.any (covers · ip) = false → blist.any (covers · ip) = true →
      addIP wlist blist dyn autoDel now ip dur reply =
        ⟨none, dyn, false, some .blacklist⟩) ∧
    (dur ≠ 0 → wlist.any (covers · ip) = false → blist.any (covers · ip) = false →
      dyn.any (covers · ip) = true →
      addIP wlist blist dyn autoDel now ip dur reply =
        ⟨none, dyn, false, some .dynlist⟩) ∧
    (dur = 0 → (addIP wlist blist dyn autoDel now ip dur reply).remoteCalled = true ∧
      (addIP wlist blist dyn autoDel now ip dur reply).skipped = none) := by
  intro wlist blist dyn autoDel now ip dur reply
  refine ⟨?_, ?_, ?_, ?_⟩
  · intro h1 h2
    unfold addIP
    rw [if_pos ⟨h1, h2⟩]
  · intro h1 h2 h3
    unfold addIP
    rw [if_neg (by simp [h2]), if_pos ⟨h1, h3⟩]
  · intro h1 h2 h3 h4
    unfold addIP
    rw [if_neg (by simp [h2]), if_neg (by simp [h3]), if_pos ⟨h1, h4⟩]
  · intro h0
    unfold addIP
    rw [if_neg (by simp [h0]), if_neg (by simp [h0]), if_neg (by simp [h0])]
    refine ⟨?_, ?_⟩ <;> (split <;> (try split) <;> rfl)

/-- C8: when `AddIP` actually reaches the device (`remoteCalled = true`) and
the remote call fails with a non-duplicate error, the wrapped error is
returned and the dynlist is exactly as before; a done-reply without the
`ret` row identifier yields the missing-field error, again with no dynlist
insertion; and a failed remote `remove` makes `DelIP` return that error with
the dynlist untouched. -/
theorem c8_error_leaves_state :
    ∀ (wlist blist dyn : List BlackIP) (autoDel : Bool) (now : Nat)
      (ip : IPNet) (dur : Nat) (msg : String) (b : BlackIP) (e : String),
    ((addIP wlist blist dyn autoDel now ip dur (.fail msg)).remoteCalled = true →
      hasSubstr msg.toList "already have".toList = false →
      addIP wlist blist dyn autoDel now ip dur (.fail msg) =
        ⟨some ("addip=" ++ msg), dyn, true, none⟩) ∧
    ((addIP wlist blist dyn autoDel now ip dur (.done none)).remoteCalled = true →
      addIP wlist blist dyn autoDel now ip dur (.done none) =
        ⟨some "missing `ret`", dyn, true, none⟩) ∧
    delIP dyn autoDel b (some e) = .ok ⟨some e, dyn⟩ := by
  intro wlist blist dyn autoDel now ip dur msg b e
  refine ⟨?_, ?_, rfl⟩
  · intro hrc hdup
    by_cases hw : dur ≠ 0 ∧ wlist.any (covers · ip) = true
    · unfold addIP at hrc; rw [if_pos hw] at hrc; simp at hrc
    · by_cases hb : dur ≠ 0 ∧ blist.any (covers · ip) = true
      · unfold addIP at hrc; rw [if_neg hw, if_pos hb] at hrc; simp at hrc
      · by_cases hd : dur ≠ 0 ∧ dyn.any (covers · ip) = true
        · unfold addIP at hrc; rw [if_neg hw, if_neg hb, if_pos hd] at hrc
          simp at hrc
        · unfold addIP
          rw [if_neg hw, if_neg hb, if_neg hd]
          show (if hasSubstr msg.toList "already have".toList = true then
              (⟨none, dyn, true, none⟩ : AddResult)
            else ⟨some ("addip=" ++ msg), dyn, true, none⟩) = _
          rw [if_neg (by rw [hdup]; simp)]
  · intro hrc
    by_cases hw : dur ≠ 0 ∧ wlist.any (covers · ip) = true
    · unfold addIP at hrc; rw [if_pos hw] at hrc; simp at hrc
    · by_cases hb : dur ≠ 0 ∧ blist.any (covers · ip) = true
      · unfold addIP at hrc; rw [if_neg hw, if_pos hb] at hrc; simp at hrc
      · by_cases hd : dur ≠ 0 ∧ dyn.any (covers · ip) = true
        · unfold addIP at hrc; rw [if_neg hw, if_neg hb, if_pos hd] at hrc
          simp at hrc
        · unfold addIP
          rw [if_neg hw, if_neg hb, if_neg hd]

/-- C7: the scheduler's wake time is the head expiry when the Dynlist is
non-empty and now plus one hour when it is empty; a timer fire with
Dynlist `[a, b]` (`a` expiring first) deletes exactly `a` — never `b` —
leaving `[b]`. -/
theorem c7_single_lookahead :
    ∀ (a b : BlackIP) (rest : List BlackIP) (now : Nat)
      (delO : BlackIP → Option String),
    schedWake [] now = now + hourNs ∧
    schedWake (a :: rest) now = a.dead ∧
    (a.dead < b.dead → delO a = none →
      schedStep [a, b] .timerFired delO = .ok ([b], [a])) := by
  intro a b rest now delO
  refine ⟨rfl, rfl, ?_⟩
  intro _ hO
  simp [schedStep, delIP, hO]

/-- C3 (code bug): `DelIP` with a remote success and AutoDelete configured
reads `mt.dynlist[0]` unconditionally, so calling it with an empty Dynlist —
exactly the "entry outside the Dynlist" situation the claim says completes
without fault, e.g. a whitelisted straggler deleted during reconciliation
before any dynamic entry was kept — panics.  The other two cases of the
claim do hold: a matching head is popped, and a non-head entry leaves the
Dynlist unchanged. -/
theorem c3_delip_empty_dynlist_panics :
    delIP ([] : List BlackIP) true ⟨⟨true, 0xC6336405, 32⟩, 5000, "*7"⟩ none = .panic ∧
    delIP [⟨⟨true, 1, 32⟩, 10, "*1"⟩, ⟨⟨true, 2, 32⟩, 20, "*2"⟩] true
        ⟨⟨true, 1, 32⟩, 10, "*1"⟩ none = .ok ⟨none, [⟨⟨true, 2, 32⟩, 20, "*2"⟩]⟩ ∧
    delIP [⟨⟨true, 1, 32⟩, 10, "*1"⟩, ⟨⟨true, 2, 32⟩, 20, "*2"⟩] true
        ⟨⟨true, 3, 32⟩, 0, "*9"⟩ none =
      .ok ⟨none, [⟨⟨true, 1, 32⟩, 10, "*1"⟩, ⟨⟨true, 2, 32⟩, 20, "*2"⟩]⟩ :=
  ⟨rfl, by decide, by decide⟩

/-- A `DelIP` issued by the reconciliation loop, deleting an entry whose row
id differs from every dynlist id, records the delete and leaves the rest of
the state alone. -/
theorem reconDelete_spec (aD : Bool) (delO : BlackIP → Option String)
    (st : ReconState) (v : BlackIP) (st2 : ReconState)
    (hids : ∀ hb ∈ st.dynlist, hb.id ≠ v.id)
    (h : reconDelete aD delO st v = .ok st2) :
    st2 = ⟨st.blackmap, st.dynlist, st.deletes ++ [v]⟩ := by
  unfold reconDelete at h
  cases hre : delO v with
  | some e =>
    rw [hre] at h
    simp only [delIP, RunResult.bind_ok] at h
    exact RunResult.noConfusion h
  | none =>
    rw [hre] at h
    simp only [delIP] at h
    cases haD : aD with
    | false =>
      rw [haD] at h
      rw [if_neg (by simp)] at h
      simp only [RunResult.bind_ok] at h
      cases h
      rfl
    | true =>
      rw [haD] at h
      rw [if_pos rfl] at h
      cases hdyn : st.dynlist with
      | nil => rw [hdyn] at h; exact RunResult.noConfusion h
      | cons hd t =>
        rw [hdyn] at h
        have hne : (hd.id == v.id) = false := by
          have := hids hd (by rw [hdyn]; exact List.mem_cons_self hd t)
          simpa using this
        have h2 : RunResult.ok
            (⟨st.blackmap, if (hd.id == v.id) = true then t else hd :: t,
              st.deletes ++ [v]⟩ : ReconState) = RunResult.ok st2 := h
        rw [if_neg (by simp [hne])] at h2
        cases h2
        rfl

/-- One entry of the reconciliation loop follows the spec's five-way case
analysis, provided the entry's row id is fresh for the dynlist. -/
theorem processEntry_spec (wl : List BlackIP) (aD : Bool)
    (delO : BlackIP → Option String) (st : ReconState) (v : BlackIP)
    (st2 : ReconState) (hids : ∀ hb ∈ st.dynlist, hb.id ≠ v.id)
    (h : processEntry wl aD delO st v = .ok st2) :
    st2.toSpec = reconSpecStep wl st.toSpec v := by
  unfold processEntry at h
  unfold reconSpecStep
  simp only [ReconState.toSpec]
  by_cases hwc : (wl.any (covers · v.net)) = true
  · rw [if_pos hwc] at h
    rw [if_pos hwc]
    rw [reconDelete_spec aD delO st v st2 hids h]
  · rw [if_neg hwc] at h
    rw [if_neg hwc]
    by_cases hperm : v.dead = 0
    · rw [if_pos hperm] at h
      rw [if_pos hperm]
      by_cases hmem : (st.blackmap.contains v.net) = true
      · rw [if_pos hmem] at h
        rw [if_pos hmem]
        cases h
        rfl
      · rw [if_neg hmem] at h
        rw [if_neg hmem]
        rw [reconDelete_spec aD delO st v st2 hids h]
    · rw [if_neg hperm] at h
      rw [if_neg hperm]
      by_cases hmem : (st.blackmap.contains v.net) = true
      · rw [if_pos hmem] at h
        rw [if_pos hmem]
        rw [reconDelete_spec aD delO st v st2 hids h]
      · rw [if_neg hmem] at h
        rw [if_neg hmem]
        cases h
        rfl

/-- The spec-side step either keeps the dynlist or appends the entry. -/
theorem reconSpecStep_dynlist (wl : List BlackIP) (sp : SpecReconState)
    (v : BlackIP) :
    (reconSpecStep wl sp v).dynlist = sp.dynlist ∨
    (reconSpecStep wl sp v).dynlist = sp.dynlist ++ [v] := by
  unfold reconSpecStep
  repeat' split
  all_goals first | exact Or.inl rfl | exact Or.inr rfl

/-- The reconciliation loop computes exactly the spec-side fold, provided
the fetched entries' row ids are fresh and mutually distinct. -/
theorem reconLoop_spec (wl : List BlackIP) (aD : Bool)
    (delO : BlackIP → Option String) :
    ∀ (entries : List BlackIP) (st out : ReconState),
    ((st.dynlist ++ entries).map (·.id)).Nodup →
    reconLoop wl aD delO st entries = .ok out →
    out.toSpec = reconSpec wl st.toSpec entries := by
  intro entries
  induction entries with
  | nil =>
    intro st out _ h
    cases h
    rfl
  | cons v vs ih =>
    intro st out hnd h
    unfold reconLoop at h
    cases hp : processEntry wl aD delO st v with
    | panic => rw [hp] at h; exact RunResult.noConfusion h
    | err e => rw [hp] at h; exact RunResult.noConfusion h
    | ok st2 =>
      rw [hp] at h
      simp only [RunResult.bind_ok] at h
      have hmap : ((st.dynlist.map (·.id)) ++ ((v :: vs).map (·.id))).Nodup := by
        rw [← List.map_append]; exact hnd
      have hdisj := (List.nodup_append.mp hmap).2.2
      have hids : ∀ hb ∈ st.dynlist, hb.id ≠ v.id := by
        intro hb hmem heq
        exact hdisj (List.mem_map_of_mem _ hmem)
          (heq ▸ List.mem_map_of_mem _ (List.mem_cons_self v vs))
      have hsp := processEntry_spec wl aD delO st v st2 hids hp
      have hd2 : st2.dynlist = st.dynlist ∨ st2.dynlist = st.dynlist ++ [v] := by
        have hx := reconSpecStep_dynlist wl st.toSpec v
        rw [← hsp] at hx
        exact hx
      have hnd2 : ((st2.dynlist ++ vs).map (·.id)).Nodup := by
        rcases hd2 with hd2 | hd2
        · rw [hd2]
          refine List.Nodup.sublist ?_ hnd
          exact List.Sublist.map _ (List.Sublist.append (List.Sublist.refl _)
            (List.sublist_cons_self v vs))
        · rw [hd2, List.append_assoc, List.singleton_append]
          exact hnd
      have hout := ih st2 out hnd2 h
      rw [hout, hsp]
      rfl

/-- C1: a completed reconciliation performs exactly the spec's case
analysis — the remote deletes, the kept dynamic entries, and the final
permanent adds (the still-unmatched blackmap keys) are those of the
spec-side fold `reconSpec` over the fetched entries in order, with the
whitelist check first, then the permanent/dynamic versus blackmap-membership
split.  The row-id freshness hypothesis reflects that device row ids are
unique per row. -/
theorem c1_reconciliation_case_analysis :
    ∀ (dev : Device) (now : Nat) (banlist : String) (wlist blist : List BlackIP)
      (autoDel : Bool) (delO : BlackIP → Option String) (addO : IPNet → RosReply)
      (entries : List BlackIP) (out : ReconOutcome),
    getAddresslist dev now banlist = .ok entries →
    (entries.map (·.id)).Nodup →
    populateAfterBuild dev now banlist wlist blist autoDel delO addO = .ok out →
    out.deletes = (reconSpec wlist ⟨blackKeys blist, [], []⟩ entries).deletes ∧
    out.dynlist = (reconSpec wlist ⟨blackKeys blist, [], []⟩ entries).dynlist ∧
    out.adds = (reconSpec wlist ⟨blackKeys blist, [], []⟩ entries).blackmap := by
  intro dev now banlist wlist blist autoDel delO addO entries out hga hnd h
  unfold populateAfterBuild at h
  by_cases hc : (wlist.any fun w => (blackKeys blist).contains w.net) = true
  · rw [if_pos hc] at h
    exact RunResult.noConfusion h
  · rw [if_neg hc, hga] at h
    simp only [RunResult.bind_ok] at h
    cases hrl : reconLoop wlist autoDel delO ⟨blackKeys blist, [], []⟩ entries with
    | panic => rw [hrl] at h; exact RunResult.noConfusion h
    | err e => rw [hrl] at h; exact RunResult.noConfusion h
    | ok st =>
      rw [hrl] at h
      simp only [RunResult.bind_ok] at h
      cases hfa : finalAdds wlist blist autoDel now addO st.dynlist st.blackmap with
      | panic => rw [hfa] at h; exact RunResult.noConfusion h
      | err e => rw [hfa] at h; exact RunResult.noConfusion h
      | ok p =>
        rw [hfa] at h
        simp only [RunResult.bind_ok] at h
        cases h
        have hps := finalAdds_ok wlist blist autoDel now addO _ _ _ hfa
        have hspec := reconLoop_spec wlist autoDel delO entries
          ⟨blackKeys blist, [], []⟩ st (by simpa using hnd) hrl
        have hdel : st.deletes = (reconSpec wlist ⟨blackKeys blist, [], []⟩ entries).deletes :=
          congrArg SpecReconState.deletes hspec
        have hdyn : st.dynlist = (reconSpec wlist ⟨blackKeys blist, [], []⟩ entries).dynlist :=
          congrArg SpecReconState.dynlist hspec
        have hbm : st.blackmap = (reconSpec wlist ⟨blackKeys blist, [], []⟩ entries).blackmap :=
          congrArg SpecReconState.blackmap hspec
        exact ⟨hdel, by rw [hps.1, hdyn], by rw [hps.2, hbm]⟩

/-! ## Witnesses -/

/-- Witness for C1: the concrete reconciliation of `devW` against `blistW`
matches the spec-side fold. -/
theorem c1_reconciliation_case_analysis_witness :
    outW.deletes = (reconSpec [] ⟨blackKeys blistW, [], []⟩ entriesW).deletes ∧
    outW.dynlist = (reconSpec [] ⟨blackKeys blistW, [], []⟩ entriesW).dynlist ∧
    outW.adds = (reconSpec [] ⟨blackKeys blistW, [], []⟩ entriesW).blackmap :=
  c1_reconciliation_case_analysis devW 1000 "blacklist" [] blistW true delOW addOW
    entriesW outW rfl (by decide) rfl

/-- Witness for C2: the concrete reconciled dynlist is sorted, and so is the
dynlist after a concrete Add. -/
theorem c2_dynlist_sorted_witness :
    List.Sorted byDead outW.dynlist ∧
    List.Sorted byDead [(⟨⟨true, 5, 32⟩, 110, "*5"⟩ : BlackIP)] :=
  ⟨c2_dynlist_sorted.1 devW 1000 "blacklist" [] blistW true delOW addOW outW rfl,
   c2_dynlist_sorted.2 [] [] true [MtOp.add ⟨true, 5, 32⟩ 100 10 (.done (some "*5"))]
     [] [⟨⟨true, 5, 32⟩, 110, "*5"⟩] (by decide) rfl⟩

/-- Witness for C4 at a concrete double add of `/32` prefix 5. -/
theorem c4_idempotent_add_witness :
    (addIP [] [] [] true 10 ⟨true, 5, 32⟩ 100 (.done (some "*1"))).err = none ∧
    (addIP [] [] (addIP [] [] [] true 10 ⟨true, 5, 32⟩ 100 (.done (some "*1"))).dynlist
        true 20 ⟨true, 5, 32⟩ 100 (.done (some "*2"))).err = none ∧
    (addIP [] [] (addIP [] [] [] true 10 ⟨true, 5, 32⟩ 100 (.done (some "*1"))).dynlist
        true 20 ⟨true, 5, 32⟩ 100 (.done (some "*2"))).dynlist.countP
      (fun b => b.net == ⟨true, 5, 32⟩) ≤ 1 ∧
    (addIP [] [] (addIP [] [] [] true 10 ⟨true, 5, 32⟩ 100 (.done (some "*1"))).dynlist
        true 20 ⟨true, 5, 32⟩ 100 (.done (some "*2"))).remoteCalled = false := by
  have h := c4_idempotent_add [] [] [] 10 20 ⟨true, 5, 32⟩ 100 (.done (some "*1"))
    (.done (some "*2")) (by decide) (by decide) (Or.inr ⟨"*1", rfl⟩) (Or.inr ⟨"*2", rfl⟩)
  exact ⟨h.1, h.2.1, h.2.2.1, h.2.2.2 "*1" rfl⟩

/-- Witness for C5: a whitelisted dynamic add is a silent no-op, and a
permanent add bypasses the checks. -/
theorem c5_whitelist_precedence_witness :
    addIP [⟨⟨true, 0xC0A80A00, 24⟩, 0, ".gcfg"⟩] [] [] true 10
        ⟨true, 0xC0A80A05, 32⟩ 100 (.done (some "*1")) =
      ⟨none, [], false, some .whitelist⟩ ∧
    (addIP [] [] [] true 10 ⟨true, 0xC0A80A05, 32⟩ 0 (.done (some "*1"))).remoteCalled =
      true := by
  have h1 := (c5_whitelist_precedence [⟨⟨true, 0xC0A80A00, 24⟩, 0, ".gcfg"⟩] [] [] true 10
    ⟨true, 0xC0A80A05, 32⟩ 100 (.done (some "*1"))).1 (by decide) (by decide)
  have h2 := (c5_whitelist_precedence [] [] [] true 10 ⟨true, 0xC0A80A05, 32⟩ 0
    (.done (some "*1"))).2.2.2 rfl
  exact ⟨h1, h2.1⟩

/-- Witness for C7 at Dynlist `[{1, t=10}, {2, t=20}]`. -/
theorem c7_single_lookahead_witness :
    schedWake [] 5 = 5 + hourNs ∧
    schedWake [(⟨⟨true, 1, 32⟩, 10, "*1"⟩ : BlackIP)] 5 = 10 ∧
    schedStep [⟨⟨true, 1, 32⟩, 10, "*1"⟩, ⟨⟨true, 2, 32⟩, 20, "*2"⟩] .timerFired delOW =
      .ok ([⟨⟨true, 2, 32⟩, 20, "*2"⟩], [⟨⟨true, 1, 32⟩, 10, "*1"⟩]) := by
  have h := c7_single_lookahead ⟨⟨true, 1, 32⟩, 10, "*1"⟩ ⟨⟨true, 2, 32⟩, 20, "*2"⟩ [] 5 delOW
  exact ⟨h.1, h.2.1, h.2.2 (by decide) rfl⟩

/-- Witness for C8 at a concrete failed add, a missing-`ret` reply, and a
failed remove. -/
theorem c8_error_leaves_state_witness :
    addIP [] [] [] true 10 ⟨true, 5, 32⟩ 100 (.fail "boom") =
      ⟨some ("addip=" ++ "boom"), [], true, none⟩ ∧
    addIP [] [] [] true 10 ⟨true, 5, 32⟩ 100 (.done none) =
      ⟨some "missing `ret`", [], true, none⟩ ∧
    delIP [] true ⟨⟨true, 1, 32⟩, 10, "*1"⟩ (some "x") = .ok ⟨some "x", []⟩ := by
  have h := c8_error_leaves_state [] [] [] true 10 ⟨true, 5, 32⟩ 100 "boom"
    ⟨⟨true, 1, 32⟩, 10, "*1"⟩ "x"
  exact ⟨h.1 (by decide) (by decide), h.2.1 (by decide), h.2.2⟩

/-- Witness for C9: whitelist and blacklist both naming `10.0.0.0/24`. -/
theorem c9_conflict_fatal_witness :
    populateBanlist devW 1000 "blacklist" ["10.0.0.0/24"] ["10.0.0.0/24"] true delOW addOW =
      .err "Conflicting whitelist/blacklist entry" ∧
    newMikrotik devW 1000 "blacklist" ["10.0.0.0/24"] ["10.0.0.0/24"] true delOW addOW ≠
      .ok outW := by
  have h := c9_conflict_fatal devW 1000 "blacklist" ["10.0.0.0/24"] ["10.0.0.0/24"]
    [⟨⟨true, 0x0A000000, 24⟩, 0, ".gcfg"⟩] [⟨⟨true, 0x0A000000, 24⟩, 0, ".gcfg"⟩] true
    delOW addOW ⟨true, 0x0A000000, 24⟩ rfl rfl (by decide) (by decide)
  exact ⟨h.1, h.2 outW⟩

/-- Witness for C10 at the host-bit test vector and an invalid address. -/
theorem c10_parsecidr_canonicalizes_witness :
    parseCIDRChars ("192.168.10.5".toList ++ '/' :: "24".toList) =
      some ⟨true, 0xC0A80A00, 24⟩ ∧
    parseCIDRChars ("not_an_ip".toList ++ '/' :: "24".toList) = none := by
  have h := c10_parsecidr_canonicalizes "192.168.10.5".toList "24".toList
    (v4InV6 0xC0A80A05) 24 (by decide)
  have h2 := c10_parsecidr_canonicalizes "not_an_ip".toList "24".toList 0 0 (by decide)
  exact ⟨h.2.1 rfl rfl (by decide), (h2.2.2.1 rfl).2⟩
